import Mathlib

/-!
Verification development for `tf_agents/utils/eager_utils.py`.

The file shallowly embeds the module's four pieces of glue code — `Future`,
`future_in_eager_mode`, `create_train_step` and `np_function` — as Lean
definitions, and proves the specification's claims about them.  The host
framework (tensors, autodiff, optimizer, execution mode) is modelled as an
opaque collaborator: its operations are parameters or symbolic data, exactly
as the spec treats them.  Python `dict`s are modelled as association lists
over `String` keys, Python exceptions as an `Except` result carrying the
error kind, message and the origin of the `raise` (this module vs the host).
-/

namespace EagerUtils

/-- Origin of a raised error: a `raise` statement in `eager_utils.py` itself,
or an error propagated from the host framework. -/
inductive ErrOrigin where
  | thisModule : ErrOrigin
  | host : ErrOrigin
  deriving DecidableEq, Repr

/-- A Python exception: its class name, message, and where it was raised. -/
structure PyErr where
  kind : String
  msg : String
  origin : ErrOrigin
  deriving DecidableEq, Repr

/-- Projection used to observe the origin of an error result. -/
def errOrigin {α : Type} : Except PyErr α → Option ErrOrigin
  | Except.error e => some e.origin
  | Except.ok _ => none

/-- Python `dict` with string keys, modelled as an association list.
Later bindings of the same key shadow earlier ones via `dictSet`. -/
abbrev Dict (V : Type) : Type := List (String × V)

/-- Embeds `d[k]` lookup: first binding of `k`. -/
def dictGet {V : Type} (d : Dict V) (k : String) : Option V :=
  match d with
  | [] => none
  | (k', v) :: rest => if k' = k then some v else dictGet rest k

/-- Embeds `d.pop(k, None)`: remove every binding of `k` (a Python dict holds one). -/
def dictPop {V : Type} (d : Dict V) (k : String) : Dict V :=
  d.filter (fun p => p.1 ≠ k)

/-- Embeds `d[k] = v`: replace the binding of `k`, or append it. -/
def dictSet {V : Type} (d : Dict V) (k : String) (v : V) : Dict V :=
  match d with
  | [] => [(k, v)]
  | (k', v') :: rest =>
      if k' = k then (k, v) :: rest else (k', v') :: dictSet rest k v

/-- Embeds `d.update(new)`: set every binding of `new` in `d`, in order. -/
def dictUpdate {V : Type} (d new : Dict V) : Dict V :=
  new.foldl (fun acc p => dictSet acc p.1 p.2) d

/-- Embeds `tf.contrib.framework.nest` structures: a possibly nested tuple of
leaves, as accepted by `nest.map_structure` / `nest.flatten`. -/
inductive Nest (α : Type) where
  | leaf : α → Nest α
  | node : List (Nest α) → Nest α
  deriving Repr

mutual

/-- Embeds `nest.map_structure(f, x)`. -/
def Nest.map {α β : Type} (f : α → β) : Nest α → Nest β
  | Nest.leaf a => Nest.leaf (f a)
  | Nest.node cs => Nest.node (Nest.mapList f cs)

/-- Helper applying `Nest.map` over the children of a `node`. -/
def Nest.mapList {α β : Type} (f : α → β) : List (Nest α) → List (Nest β)
  | [] => []
  | c :: cs => Nest.map f c :: Nest.mapList f cs

end

mutual

/-- Embeds `nest.flatten(x)`: leaves in left-to-right order. -/
def Nest.flatten {α : Type} : Nest α → List α
  | Nest.leaf a => [a]
  | Nest.node cs => Nest.flattenList cs

/-- Helper applying `Nest.flatten` over the children of a `node`. -/
def Nest.flattenList {α : Type} : List (Nest α) → List α
  | [] => []
  | c :: cs => Nest.flatten c ++ Nest.flattenList cs

end

/-!  ## The `Future` class (eager_utils.py lines 67-130)

A Python callable is modelled by `PyFn`: the introspectable metadata that
`has_self_cls_arg` / `is_unbound` read, plus its behaviour `run`.
`run (some s) args kwargs` is the call with an explicit self/cls object `s`
passed first (as `Future.__call__` does for unbound methods); `run none`
is a direct call of the object. -/

/-- Introspection data of a Python function or method, as read by
`has_self_cls_arg` and `is_unbound`: the `staticmethod`/`classmethod`
wrappers, `inspect.ismethod`, the declared argument names, and the
`__self__` attribute together with its truthiness (absent = `none`). -/
structure FuncMeta where
  isStaticmethod : Bool
  isMethod : Bool
  isClassmethod : Bool
  argNames : List String
  selfAttr : Option Bool
  deriving DecidableEq, Repr

/-- Embeds `has_self_cls_arg(func_or_method)` (lines 67-81): staticmethods never,
methods and classmethods always, otherwise the first declared argument
name is `self` or `cls`. -/
def has_self_cls_arg (m : FuncMeta) : Bool :=
  if m.isStaticmethod then false
  else if m.isMethod then true
  else if m.isClassmethod then true
  else
    match m.argNames with
    | [] => false
    | n :: _ => n == "self" || n == "cls"

/-- Embeds `is_unbound(method)` (lines 84-86):
`not (hasattr(method, '__self__') and method.__self__)`. -/
def is_unbound (m : FuncMeta) : Bool :=
  !(match m.selfAttr with
    | some t => t
    | none => false)

/-- A Python callable: introspection metadata plus behaviour.  The behaviour
is opaque (host side); `Future` only rearranges the arguments it is given. -/
structure PyFn (V R : Type) where
  fmeta : FuncMeta
  run : Option V → List V → Dict V → R

/-- The `Future` object's attributes after `__init__`:
`_func_or_method`, `_args`, `_kwargs`, `_arg_names`, `_self`. -/
structure Future (V R : Type) where
  fn : PyFn V R
  args : List V
  kwargs : Dict V
  argNames : List String
  self_ : Option V

/-- The `ValueError` raised by `Future.__init__` (message kept verbatim,
including the source's typo). -/
def unboundValueError : PyErr :=
  ⟨"ValueError", "func_or_method is unbond, but not class/instance provided.", ErrOrigin.thisModule⟩

/-- Embeds `Future.__init__` (lines 92-110).  Stores the function, the positional
arguments and a copy of the keyword arguments; for self/cls-taking
callables it drops the first argument name, and for unbound ones it takes
`args[0]` as the instance/class, raising `ValueError` when `args` is empty. -/
def Future.init {V R : Type} (fn : PyFn V R) (args : List V) (kwargs : Dict V) :
    Except PyErr (Future V R) :=
  let arg_names := fn.fmeta.argNames
  if has_self_cls_arg fn.fmeta then
    if is_unbound fn.fmeta then
      match args with
      | [] => Except.error unboundValueError
      | a :: rest =>
          Except.ok ⟨fn, rest, kwargs, arg_names.tail, some a⟩
    else
      Except.ok ⟨fn, args, kwargs, arg_names.tail, none⟩
  else
    Except.ok ⟨fn, args, kwargs, arg_names, none⟩

/-- Embeds `Future.__call__` (lines 112-130).  New positional args replace the
stored ones wholesale (`args or self._args`); the stored kwargs are copied,
every kwarg named by one of the first `len(args)` remaining parameter names
is popped, the new kwargs are merged in, and the function is invoked
(`self._self` prepended when it was bound at init; the truthiness test
`if self._self:` is modelled as presence, self objects being truthy). -/
def Future.call {V R : Type} (fut : Future V R) (args : List V) (kwargs : Dict V) : R :=
  let call_args := if args.isEmpty then fut.args else args
  let call_kwargs := (fut.argNames.take args.length).foldl dictPop fut.kwargs
  let call_kwargs := dictUpdate call_kwargs kwargs
  match fut.self_ with
  | some s => fut.fn.run (some s) call_args call_kwargs
  | none => fut.fn.run none call_args call_kwargs

/-!  ### Heap-level model of `Future`, for the frame claim

Python dicts are mutable references.  To state that calling a `Future`
mutates neither the `Future` nor its stored kwargs dict, we re-embed
`__init__`/`__call__` against an explicit heap of dicts: `copy.copy` is an
allocation, and the `pop`/`update` calls in `__call__` write only to the
freshly allocated cell.  `callH` returns the argument binding the underlying
function is invoked with, so determinism across calls is directly statable. -/

/-- A heap of Python dicts; addresses are indices. -/
abbrev Heap (V : Type) : Type := List (Dict V)

/-- Allocate a new dict, returning the heap and the fresh address. -/
def halloc {V : Type} (h : Heap V) (d : Dict V) : Heap V × Nat :=
  (h ++ [d], h.length)

/-- Read the dict at an address (dangling reads give the empty dict). -/
def hget {V : Type} (h : Heap V) (a : Nat) : Dict V :=
  (h[a]?).getD []

/-- Overwrite the dict at an address. -/
def hset {V : Type} (h : Heap V) (a : Nat) (d : Dict V) : Heap V :=
  h.set a d

/-- A `Future` whose `_kwargs` attribute is a reference into the heap. -/
structure FutureH (V R : Type) where
  fn : PyFn V R
  args : List V
  kwargsAddr : Nat
  argNames : List String
  self_ : Option V

/-- The complete argument binding a call hands to the underlying function. -/
structure CallBinding (V : Type) where
  self_ : Option V
  posArgs : List V
  kwArgs : Dict V
  deriving DecidableEq, Repr

/-- Embeds `Future.__init__` at heap level: `self._kwargs = copy.copy(kwargs)`
allocates a private copy of the caller's dict (line 95). -/
def FutureH.init {V R : Type} (h : Heap V) (fn : PyFn V R) (args : List V)
    (callerKwargs : Nat) : Except PyErr (FutureH V R × Heap V) :=
  let copied := halloc h (hget h callerKwargs)
  let h' := copied.1
  let addr := copied.2
  let arg_names := fn.fmeta.argNames
  if has_self_cls_arg fn.fmeta then
    if is_unbound fn.fmeta then
      match args with
      | [] => Except.error unboundValueError
      | a :: rest =>
          Except.ok (⟨fn, rest, addr, arg_names.tail, some a⟩, h')
    else
      Except.ok (⟨fn, args, addr, arg_names.tail, none⟩, h')
  else
    Except.ok (⟨fn, args, addr, arg_names, none⟩, h')

/-- Embeds `Future.__call__` at heap level:
`call_kwargs = copy.copy(self._kwargs)` allocates a fresh cell (line 123);
the `pop` loop and `update` (lines 124-127) write only to that cell.
Returns the binding passed to the underlying function and the final heap. -/
def FutureH.call {V R : Type} (h : Heap V) (fut : FutureH V R) (args : List V)
    (kwargs : Dict V) : CallBinding V × Heap V :=
  let call_args := if args.isEmpty then fut.args else args
  let copied := halloc h (hget h fut.kwargsAddr)
  let h1 := copied.1
  let ca := copied.2
  let popped := (fut.argNames.take args.length).foldl dictPop (hget h1 ca)
  let h2 := hset h1 ca (dictUpdate popped kwargs)
  (⟨fut.self_, call_args, hget h2 ca⟩, h2)

/-!  ## `future_in_eager_mode` (lines 133-170) -/

/-- A Python object handed to the decorator: a callable or not. -/
inductive PyCallable (V R : Type) where
  | fn : PyFn V R → PyCallable V R
  | notCallable : Nat → PyCallable V R

/-- What one invocation of the decorated function produces: the underlying
function's outputs (graph mode), a deferred `Future` (eager mode), or an
exception escaping from `Future.__init__`. -/
inductive DecoratorResult (V R : Type) where
  | invoked : R → DecoratorResult V R
  | deferred : Future V R → DecoratorResult V R
  | raised : PyErr → DecoratorResult V R

/-- Observe a `raised` outcome. -/
def DecoratorResult.raisedErr {V R : Type} : DecoratorResult V R → Option PyErr
  | DecoratorResult.raised e => some e
  | _ => none

/-- Embeds `future_in_eager_mode` body (lines 161-170): the `callable` check, then
the decorator closure is returned (modelled as returning the callable's
`PyFn`; the closure's behaviour is `future_in_eager_mode.decorator`). -/
def future_in_eager_mode {V R : Type} (f : PyCallable V R) : Except PyErr (PyFn V R) :=
  match f with
  | PyCallable.notCallable _ =>
      Except.error ⟨"TypeError", "func_or_method must be callable.", ErrOrigin.thisModule⟩
  | PyCallable.fn g => Except.ok g

/-- The nested `decorator(*args, **kwargs)` (lines 164-168): in eager mode
build a `Future` from the function and the arguments, otherwise invoke the
function on them directly. -/
def future_in_eager_mode.decorator {V R : Type} (executingEagerly : Bool)
    (fn : PyFn V R) (args : List V) (kwargs : Dict V) : DecoratorResult V R :=
  if executingEagerly then
    match Future.init fn args kwargs with
    | Except.ok fut => DecoratorResult.deferred fut
    | Except.error e => DecoratorResult.raised e
  else
    DecoratorResult.invoked (fn.run none args kwargs)

/-!  ## `create_train_step` (lines 193-321)

The host framework is opaque: graph-mode loss tensors are symbolic ids whose
values a `GraphHost` assigns, `tf.contrib.training.create_train_op` is a
symbolic `TrainOp` node whose run-time effect the host supplies, eager-mode
autodiff is an opaque `gradient` function, and the optimizer is an opaque
state transformer.  Host-visible state is `HostState`:
variable values, optimizer slot state, and the global-step variable
(absent until `tf.train.get_or_create_global_step` creates it). -/

/-- Framework state the module's operations can affect. -/
structure HostState where
  vars : List Int
  optState : List Int
  globalStep : Option Nat
  deriving DecidableEq, Repr

/-- Embeds `tf.train.get_or_create_global_step()`: creates the global-step
variable (at 0) when absent, otherwise leaves the state alone. -/
def get_or_create_global_step (s : HostState) : HostState :=
  match s.globalStep with
  | some _ => s
  | none => { s with globalStep := some 0 }

/-- A graph-mode tensor: a symbolic id. -/
abbrev GraphT : Type := Nat

/-- The symbolic train op built by `tf.contrib.training.create_train_op`
from the total loss, the optimizer and the resolved `variables_to_train`
(the remaining keyword options are forwarded to the host unmodelled). -/
structure TrainOp where
  totalLoss : Nest GraphT
  optId : Nat
  vtt : Option (List Nat)

/-- One leaf of graph-mode `create_train_step`'s result:
`tf.identity(t, 'loss')` built under `tf.control_dependencies([train_op])`
(line 269-270). -/
structure GIdentity where
  dep : TrainOp
  t : GraphT

/-- Opaque graph-mode host behaviour: tensor evaluation and the run-time
effect of executing a train op. -/
structure GraphHost where
  valueOf : HostState → GraphT → Int
  trainEffect : TrainOp → HostState → HostState

/-- Evaluating one output leaf in a session run.  Per the source's comment
(lines 254-255) the loss is computed first, then the train op runs, then
the identity returns the already-computed loss: the value is the loss
tensor's value in the pre-state, and the net effect is the train op's. -/
def evalGIdentity (host : GraphHost) (g : GIdentity) (s : HostState) : Int × HostState :=
  (host.valueOf s g.t, host.trainEffect g.dep s)

/-- Opaque eager-mode autodiff: `tape.gradient(total_loss, variables)`
in the current state. -/
structure EagerHost where
  gradient : HostState → Nest Int → List Nat → List Int

/-- The optimizer: `apply_gradients(grads_and_vars, global_step=...)` is an
opaque state transformer (it may also advance the global step). -/
structure Optimizer where
  optId : Nat
  applyGradients : List (Int × Nat) → HostState → HostState

/-- A Python callable usable as `loss`: its behaviour when called while
building a graph (the tensors it returns) and when called eagerly (the
loss values returned and the variables the gradient tape watches). -/
structure LossFn where
  graphEval : Nest GraphT
  eagerEval : HostState → Nest Int × List Nat

/-- The `loss` argument: a callable, or a non-callable (nest of) tensor(s). -/
inductive LossArg where
  | fn : LossFn → LossArg
  | tensors : Nest GraphT → LossArg

/-- The `total_loss_fn` argument: a callable (with its graph-mode and
eager-mode behaviour), or some non-callable object. -/
inductive TLFArg where
  | fn : (Nest GraphT → Nest GraphT) → (Nest Int → Nest Int) → TLFArg
  | notCallable : Nat → TLFArg

/-- The `variables_to_train` argument: a variable list or a callable
producing one. -/
inductive VarsArg where
  | direct : List Nat → VarsArg
  | thunk : (Unit → List Nat) → VarsArg

/-- Graph-mode resolution of `variables_to_train` (lines 252-253):
`if callable(variables_to_train): variables_to_train = variables_to_train()`. -/
def resolveVarsArg : Option VarsArg → Option (List Nat)
  | none => none
  | some (VarsArg.direct vs) => some vs
  | some (VarsArg.thunk f) => some (f ())

/-- Eager-mode resolution of `_variables_to_train` inside `train_step`
(lines 290-294): `None` means the tape-watched variables, a callable is
called; the result is flattened (modelled as already flat). -/
def resolveTrainVars (vtt : Option VarsArg) (watched : List Nat) : List Nat :=
  match vtt with
  | none => watched
  | some (VarsArg.direct vs) => vs
  | some (VarsArg.thunk f) => f ()

/-- The `Future` returned by eager-mode `create_train_step` (lines 317-321):
the nested `train_step` with its bound kwargs `_loss`, `_total_loss_fn`,
`_variables_to_train`, and the captured decorator-level configuration. -/
structure TrainFuture where
  host : EagerHost
  optimizer : Optimizer
  transform_grads_fn : Option (List (Int × Nat) → List (Int × Nat))
  check_numerics : Bool
  lossFn : LossFn
  total_loss_fn : Nest Int → Nest Int
  variables_to_train : Option VarsArg

/-- The nested `train_step` body (lines 281-315), invoked when the returned
`Future` is called: evaluate the loss under a gradient tape, resolve the
variables to train (tape-watched when `None`, called when callable),
compute gradients of the total loss, optionally transform them, and apply
them through the optimizer.  `tf.check_numerics` is the identity on finite
values and `summarize_gradients` only logs, so neither changes the result. -/
def TrainFuture.train_step (tr : TrainFuture) (s : HostState) : Nest Int × HostState :=
  let evaled := tr.lossFn.eagerEval s
  let loss_value := evaled.1
  let watched := evaled.2
  let total_loss_value := tr.total_loss_fn loss_value
  let vtt : List Nat := resolveTrainVars tr.variables_to_train watched
  let grads := tr.host.gradient s total_loss_value vtt
  let grads_and_vars := grads.zip vtt
  let grads_and_vars :=
    match tr.transform_grads_fn with
    | some tg => tg grads_and_vars
    | none => grads_and_vars
  let s' := tr.optimizer.applyGradients grads_and_vars s
  (loss_value, s')

/-- What `create_train_step` hands back. -/
inductive TrainStepResult where
  | graphOut : Nest GIdentity → TrainStepResult
  | eagerFuture : TrainFuture → TrainStepResult

/-- The `ValueError` of line 247. -/
def tlfValueError : PyErr :=
  ⟨"ValueError", "`total_loss_fn` should be a function.", ErrOrigin.thisModule⟩

/-- The `ValueError` of line 276. -/
def lossValueError : PyErr :=
  ⟨"ValueError", "`loss` should be a function in eager mode.", ErrOrigin.thisModule⟩

/-- Embeds `create_train_step` (lines 193-321).  Validates `total_loss_fn`
(defaulting it to the identity), then in graph mode calls a callable
`loss`/`variables_to_train`, builds the train op from
`total_loss_fn(loss)` under control dependencies on the loss, and returns
the loss tensors re-emitted as identities conditioned on the train op;
in eager mode it first ensures a global step exists, validates that `loss`
is callable, and returns the `train_step` `Future` with the bound kwargs.
The final `HostState` is returned alongside, also when an error is raised. -/
def create_train_step (eager : Bool) (host : EagerHost) (loss : LossArg)
    (optimizer : Optimizer) (total_loss_fn : Option TLFArg)
    (variables_to_train : Option VarsArg)
    (transform_grads_fn : Option (List (Int × Nat) → List (Int × Nat)))
    (check_numerics : Bool) (s : HostState) :
    Except PyErr TrainStepResult × HostState :=
  let tlf := total_loss_fn.getD (TLFArg.fn id id)
  match tlf with
  | TLFArg.notCallable _ => (Except.error tlfValueError, s)
  | TLFArg.fn tlfG tlfE =>
    if !eager then
      let lossT : Nest GraphT :=
        match loss with
        | LossArg.fn f => f.graphEval
        | LossArg.tensors t => t
      let train_op : TrainOp :=
        ⟨tlfG lossT, optimizer.optId, resolveVarsArg variables_to_train⟩
      (Except.ok (TrainStepResult.graphOut (lossT.map (fun t => ⟨train_op, t⟩))), s)
    else
      let s' := get_or_create_global_step s
      match loss with
      | LossArg.tensors _ => (Except.error lossValueError, s')
      | LossArg.fn f =>
          (Except.ok (TrainStepResult.eagerFuture
            ⟨host, optimizer, transform_grads_fn, check_numerics, f, tlfE,
              variables_to_train⟩), s')

/-!  ## `np_function` (lines 324-423)

Tensors and numpy arrays carry a dtype, a shape and flat integer data.
The wrapped numpy function takes the keyword arguments bound by
`functools.partial` and the positional-argument nest; its outputs may
contain `None` (which the eager path's `convert` passes through). -/

/-- A framework dtype, e.g. `tf.int64`; identified by an id. -/
structure DType where
  id : Nat
  deriving DecidableEq, Repr

/-- A numpy array: dtype, shape, flat data. -/
structure NpArray where
  dtype : DType
  shape : List Nat
  data : List Int
  deriving DecidableEq, Repr

/-- A concrete (eager) tensor: dtype, shape, flat data. -/
structure Tensor where
  dtype : DType
  shape : List Nat
  data : List Int
  deriving DecidableEq, Repr

/-- Embeds `x.numpy()` on an eager tensor. -/
def Tensor.numpy (t : Tensor) : NpArray := ⟨t.dtype, t.shape, t.data⟩

/-- Embeds `tf.convert_to_tensor(x)` on a numpy array. -/
def convert_to_tensor (a : NpArray) : Tensor := ⟨a.dtype, a.shape, a.data⟩

/-- Embeds `np.ones(x.shape, x.dtype.as_numpy_dtype)` (line 405). -/
def npOnes (shape : List Nat) (dtype : DType) : NpArray :=
  ⟨dtype, shape, List.replicate shape.prod 1⟩

/-- Model of `func.memo`: a dict keyed by input-dtype tuples.  Assigning a fresh key
appends; `np_function` never assigns an existing key. -/
abbrev Memo : Type := List (List DType × List DType)

/-- Embeds `input_dtypes in func.memo` / `func.memo[input_dtypes]`. -/
def memoLookup (m : Memo) (k : List DType) : Option (List DType) :=
  match m with
  | [] => none
  | (k', v) :: rest => if k' = k then some v else memoLookup rest k

/-- Embeds `func.memo[input_dtypes] = v` for a key not yet present. -/
def memoInsert (m : Memo) (k v : List DType) : Memo :=
  m ++ [(k, v)]

/-- The type of the wrapped numpy function, after `functools.partial` has
bound the keyword arguments (line 394-395): kwargs, then the positional
argument nest. -/
abbrev NpFunc (Kv : Type) : Type := Dict Kv → Nest NpArray → Nest (Option NpArray)

/-- Embeds `nest.flatten(nest.map_structure(lambda x: x.dtype, result))`
(line 409); reading `.dtype` off a `None` output raises host-side. -/
def flatDTypes (res : Nest (Option NpArray)) : Except PyErr (List DType) :=
  if (res.flatten).all (fun o => o.isSome) then
    Except.ok ((res.flatten).filterMap (fun o => o.map NpArray.dtype))
  else
    Except.error ⟨"AttributeError", "'NoneType' object has no attribute 'dtype'", ErrOrigin.host⟩

/-- The symbolic `tf.py_function(func_part, inp=args, Tout=output_dtypes)`
node built by the graph branch (line 414). -/
structure PyFuncNode where
  inp : Nest Tensor
  tout : List DType

/-- The graph branch of `np_function`'s `wrapper` (lines 400-414): compute
the input-dtype tuple; on a memo miss infer the output dtypes — by calling
`func` on `np.ones` inputs when `get_output_dtypes` is `None`, otherwise by
calling `get_output_dtypes` on the input dtypes — and store them; then
build the `tf.py_function` node with the memoized entry as `Tout`.  The
returned `Bool` records whether this call ran the inference branch. -/
def np_function_graph {Kv : Type} (func : NpFunc Kv)
    (get_output_dtypes : Option (List DType → List DType)) (kwargs : Dict Kv)
    (memo : Memo) (args : Nest Tensor) :
    Except PyErr (PyFuncNode × Memo × Bool) :=
  let input_dtypes := (Nest.flatten args).map Tensor.dtype
  match memoLookup memo input_dtypes with
  | some out => Except.ok (⟨args, out⟩, memo, false)
  | none =>
      match get_output_dtypes with
      | none =>
          let zero_args := Nest.map (fun x => npOnes x.shape x.dtype) args
          match flatDTypes (func kwargs zero_args) with
          | Except.error e => Except.error e
          | Except.ok out =>
              Except.ok (⟨args, out⟩, memoInsert memo input_dtypes out, true)
      | some g =>
          let out := g input_dtypes
          Except.ok (⟨args, out⟩, memoInsert memo input_dtypes out, true)

/-- The eager branch of `np_function`'s `wrapper` (lines 396-399): call
`func` on the arguments' numpy values and convert every non-`None` output
back with `tf.convert_to_tensor`. -/
def np_function_eager {Kv : Type} (func : NpFunc Kv) (kwargs : Dict Kv)
    (args : Nest Tensor) : Nest (Option Tensor) :=
  let result := func kwargs (Nest.map Tensor.numpy args)
  Nest.map (fun x => Option.map convert_to_tensor x) result

/-- The spec's description of the eager path, stated in its own words:
"the returned structure equals the tensor conversion of `func` applied to
the numpy values of the inputs". -/
def np_function_eager_spec {Kv : Type} (func : NpFunc Kv) (kwargs : Dict Kv)
    (args : Nest Tensor) : Nest (Option Tensor) :=
  Nest.map (Option.map convert_to_tensor) (func kwargs (Nest.map Tensor.numpy args))

/-- A sequence of graph-mode calls of one decorated function, threading
`func.memo` and counting how many calls ran the output-dtype inference;
an escaping exception ends the sequence. -/
def runNpCalls {Kv : Type} (func : NpFunc Kv)
    (get_output_dtypes : Option (List DType → List DType)) (kwargs : Dict Kv) :
    List (Nest Tensor) → Memo → Memo × Nat
  | [], m => (m, 0)
  | a :: rest, m =>
      match np_function_graph func get_output_dtypes kwargs m a with
      | Except.error _ => (m, 0)
      | Except.ok (_, m', ran) =>
          let r := runNpCalls func get_output_dtypes kwargs rest m'
          (r.1, (if ran then 1 else 0) + r.2)

/-!  ## Concrete instances used by witnesses and counterexamples -/

/-- A plain function whose first declared parameter is `self` (hence
treated as an unbound method by `has_self_cls_arg`/`is_unbound`). -/
def cFnC2 : PyFn Int Int :=
  ⟨⟨false, false, false, ["self", "x"], none⟩, fun _ _ _ => 0⟩

/-- A two-parameter plain function whose result records its full binding. -/
def wFnC4 : PyFn Int (Option Int × List Int × Dict Int) :=
  ⟨⟨false, false, false, ["x", "y"], none⟩, fun s a k => (s, a, k)⟩

/-- A `Future` over `wFnC4` with two bound positional args and two kwargs. -/
def wFutC4 : Future Int (Option Int × List Int × Dict Int) :=
  ⟨wFnC4, [1, 2], [("x", 10), ("y", 20)], ["x", "y"], none⟩

/-- A three-parameter plain function whose result records its binding. -/
def wFnC8 : PyFn Int (Option Int × List Int × Dict Int) :=
  ⟨⟨false, false, false, ["a", "b", "c"], none⟩, fun s a k => (s, a, k)⟩

/-- A `Future` over `wFnC8` with three bound positional arguments. -/
def wFutC8 : Future Int (Option Int × List Int × Dict Int) :=
  ⟨wFnC8, [1, 2, 3], [("b", 20), ("c", 30)], ["a", "b", "c"], none⟩

/-- A one-parameter plain function with trivial behaviour. -/
def wFnC10 : PyFn Int Unit :=
  ⟨⟨false, false, false, ["x"], none⟩, fun _ _ _ => ()⟩

/-- A heap-level `Future` whose kwargs dict lives at address 0. -/
def wFutC10 : FutureH Int Unit := ⟨wFnC10, [1], 0, ["x"], none⟩

/-- A one-cell heap for `wFutC10`. -/
def wHeapC10 : Heap Int := [[("x", 5)]]

/-- A plain function whose first declared parameter is `cls`. -/
def cFnC5 : PyFn Int Int :=
  ⟨⟨false, false, false, ["cls", "x"], none⟩, fun _ _ _ => 0⟩

/-- A trivial autodiff host. -/
def hostC5 : EagerHost := ⟨fun _ _ _ => []⟩

/-- A trivial optimizer. -/
def optC5 : Optimizer := ⟨0, fun _ s => s⟩

/-- A start state with one variable, one optimizer slot, no global step. -/
def s0C5 : HostState := ⟨[3], [4], none⟩

/-- A sample dtype. -/
def d0 : DType := ⟨0⟩

/-- The identity numpy function (every output has an input's dtype/shape). -/
def idNpFunc : NpFunc Int := fun _ a => Nest.map some a

/-- A rank-1 tensor of dtype `d0` and shape `[2]`. -/
def tIn1 : Nest Tensor := Nest.leaf ⟨d0, [2], [5, 6]⟩

/-- A rank-1 tensor of dtype `d0` and shape `[3]` (same dtype as `tIn1`). -/
def tIn2 : Nest Tensor := Nest.leaf ⟨d0, [3], [1, 2, 3]⟩

/-- A memo already holding the entry for dtype tuple `[d0]`. -/
def wMemoC6 : Memo := [([d0], [d0])]

/-- The quantity claim C1 says the memo entry records: the (flattened)
output shapes of `func` for a graph-mode call, i.e. the shapes of the
outputs of `func` on the `np.ones` stand-ins for the call's inputs
(`none` for a `None` output). -/
def npOutputShapes {Kv : Type} (func : NpFunc Kv) (kwargs : Dict Kv)
    (args : Nest Tensor) : List (Option (List Nat)) :=
  ((func kwargs (Nest.map (fun x => npOnes x.shape x.dtype) args)).flatten).map
    (fun o => o.map NpArray.shape)

/-!  ## Helper lemmas -/

/-- Reading below the old length is unaffected by an allocation. -/
lemma hget_append_lt {V : Type} (h : Heap V) (d : Dict V) (a : Nat)
    (ha : a < h.length) : hget (h ++ [d]) a = hget h a := by
  simp [hget, List.getElem?_append, ha]

/-- Reading a freshly allocated cell gives the allocated dict. -/
lemma hget_append_self {V : Type} (h : Heap V) (d : Dict V) :
    hget (h ++ [d]) h.length = d := by
  simp [hget, List.getElem?_concat_length]

/-- Reading a cell just written gives the written dict. -/
lemma hget_hset_self {V : Type} (h : Heap V) (a : Nat) (d : Dict V)
    (ha : a < h.length) : hget (hset h a d) a = d := by
  simp [hget, hset, List.getElem?_set_eq_of_lt _ ha]

/-- Writing one cell leaves every other cell unchanged. -/
lemma hget_hset_ne {V : Type} (h : Heap V) (a b : Nat) (d : Dict V)
    (hne : a ≠ b) : hget (hset h a d) b = hget h b := by
  simp [hget, hset, List.getElem?_set_ne hne]

/-- Appending memo entries preserves existing lookups. -/
lemma memoLookup_append (m l : Memo) (k v : List DType)
    (h : memoLookup m k = some v) : memoLookup (m ++ l) k = some v := by
  induction m with
  | nil => simp [memoLookup] at h
  | cons p rest ih =>
      obtain ⟨k', v'⟩ := p
      by_cases hk : k' = k
      · simpa [memoLookup, hk] using h
      · simp only [memoLookup, hk, if_false, List.cons_append] at h ⊢
        exact ih h

/-- Inserting a fresh key makes it found. -/
lemma memoLookup_insert_self (m : Memo) (k v : List DType)
    (h : memoLookup m k = none) : memoLookup (memoInsert m k v) k = some v := by
  induction m with
  | nil => simp [memoLookup, memoInsert]
  | cons p rest ih =>
      obtain ⟨k', v'⟩ := p
      by_cases hk : k' = k
      · simp [memoLookup, hk] at h
      · simp only [memoLookup, memoInsert, hk, if_false, List.cons_append] at h ⊢
        exact ih h

/-!  ## Claims about `Future` and `future_in_eager_mode` -/

/-- Claim C4: a `Future` is a reusable callable.  Called with no arguments
it invokes the underlying function on the positional and keyword arguments
bound at construction; called with new keyword arguments it overrides the
bound keywords; called with new positional arguments it invokes the
function on those, with every bound keyword whose parameter position is
covered by the new positional arguments removed before the new keywords
are merged in. -/
theorem claim_C4_future_reusable_callable {V R : Type} (fut : Future V R)
    (args : List V) (kwargs : Dict V) :
    fut.call [] [] = fut.fn.run fut.self_ fut.args fut.kwargs
    ∧ fut.call [] kwargs = fut.fn.run fut.self_ fut.args (dictUpdate fut.kwargs kwargs)
    ∧ (args ≠ [] →
        fut.call args kwargs =
          fut.fn.run fut.self_ args
            (dictUpdate ((fut.argNames.take args.length).foldl dictPop fut.kwargs) kwargs)) := by
  refine ⟨?_, ?_, ?_⟩
  · cases h : fut.self_ <;> simp [Future.call, dictUpdate, h]
  · cases h : fut.self_ <;> simp [Future.call, h]
  · intro hne
    cases args with
    | nil => exact absurd rfl hne
    | cons a rest => cases h : fut.self_ <;> simp [Future.call, h]

/-- Witness for C4: overriding call on a concrete `Future`. -/
theorem claim_C4_witness :
    wFutC4.call [5] [("y", 99)] =
      wFutC4.fn.run wFutC4.self_ [5]
        (dictUpdate ((wFutC4.argNames.take ([5] : List Int).length).foldl dictPop wFutC4.kwargs)
          [("y", 99)]) :=
  (claim_C4_future_reusable_callable wFutC4 [5] [("y", 99)]).2.2 (by decide)

/-- Claim C8: positional override is all-or-nothing.  For a `Future` with
`n > 0` bound positional arguments, a call with `0 < k < n` new positional
arguments invokes the function with only the `k` new positional arguments
(plus surviving keywords); none of the bound positional arguments are
merged in. -/
theorem claim_C8_positional_override_all_or_nothing {V R : Type} (fut : Future V R)
    (args : List V) (kwargs : Dict V)
    (hbound : 0 < fut.args.length) (hnew : 0 < args.length)
    (hlt : args.length < fut.args.length) :
    fut.call args kwargs =
      fut.fn.run fut.self_ args
        (dictUpdate ((fut.argNames.take args.length).foldl dictPop fut.kwargs) kwargs) := by
  cases args with
  | nil => simp at hnew
  | cons a rest => cases h : fut.self_ <;> simp [Future.call, h]

/-- Witness for C8: a `Future` with three bound positional arguments,
called with one new positional argument. -/
theorem claim_C8_witness :
    0 < wFutC8.args.length ∧ 0 < ([7] : List Int).length
    ∧ ([7] : List Int).length < wFutC8.args.length
    ∧ wFutC8.call [7] [] =
        wFutC8.fn.run wFutC8.self_ [7]
          (dictUpdate ((wFutC8.argNames.take ([7] : List Int).length).foldl dictPop wFutC8.kwargs)
            []) :=
  ⟨by decide, by decide, by decide,
    claim_C8_positional_override_all_or_nothing wFutC8 [7] [] (by decide) (by decide) (by decide)⟩

/-- Counterexample to claim C2 as stated: a decorated plain function whose
first parameter is `self` (an unbound method for `has_self_cls_arg` /
`is_unbound`), called in eager mode with no arguments, does not return a
`Future` — `Future.__init__` raises `ValueError`. -/
theorem claim_C2_counterexample :
    (future_in_eager_mode.decorator true cFnC2 [] []).raisedErr = some unboundValueError := rfl

/-- Claim C2 as amended: a `future_in_eager_mode`-decorated callable, in
graph mode, immediately invokes the underlying function on the given
arguments and returns its outputs; in eager mode it does not invoke the
function and returns the `Future` constructed from the function and those
arguments — except that when the callable takes self/cls, is unbound, and
no positional argument is given, the `Future` construction raises
`ValueError` instead. -/
theorem claim_C2_future_in_eager_mode_dispatch {V R : Type} (fn : PyFn V R)
    (args : List V) (kwargs : Dict V) :
    future_in_eager_mode.decorator false fn args kwargs
        = DecoratorResult.invoked (fn.run none args kwargs)
    ∧ (has_self_cls_arg fn.fmeta = false →
        future_in_eager_mode.decorator true fn args kwargs
          = DecoratorResult.deferred ⟨fn, args, kwargs, fn.fmeta.argNames, none⟩)
    ∧ (has_self_cls_arg fn.fmeta = true → is_unbound fn.fmeta = false →
        future_in_eager_mode.decorator true fn args kwargs
          = DecoratorResult.deferred ⟨fn, args, kwargs, fn.fmeta.argNames.tail, none⟩)
    ∧ (∀ a rest, args = a :: rest →
        has_self_cls_arg fn.fmeta = true → is_unbound fn.fmeta = true →
        future_in_eager_mode.decorator true fn args kwargs
          = DecoratorResult.deferred ⟨fn, rest, kwargs, fn.fmeta.argNames.tail, some a⟩)
    ∧ (args = [] → has_self_cls_arg fn.fmeta = true → is_unbound fn.fmeta = true →
        future_in_eager_mode.decorator true fn args kwargs
          = DecoratorResult.raised unboundValueError) := by
  refine ⟨rfl, ?_, ?_, ?_, ?_⟩
  · intro h1
    simp [future_in_eager_mode.decorator, Future.init, h1]
  · intro h1 h2
    simp [future_in_eager_mode.decorator, Future.init, h1, h2]
  · rintro a rest rfl h1 h2
    simp [future_in_eager_mode.decorator, Future.init, h1, h2]
  · rintro rfl h1 h2
    simp [future_in_eager_mode.decorator, Future.init, h1, h2]

/-- Witness for (amended) C2: eager-mode call on an unbound self-taking
function with one positional argument defers, binding that argument as
self. -/
theorem claim_C2_witness :
    future_in_eager_mode.decorator true cFnC2 [7] []
      = DecoratorResult.deferred ⟨cFnC2, [], [], cFnC2.fmeta.argNames.tail, some 7⟩ :=
  (claim_C2_future_in_eager_mode_dispatch cFnC2 [7] []).2.2.2.1 7 [] rfl (by decide) (by decide)

/-- Characterization of a heap-level call when the stored kwargs address is
live: the binding uses a copy of the stored dict, and only the freshly
allocated cell (at the old heap length) is written. -/
lemma FutureH.call_spec {V R : Type} (h : Heap V) (fut : FutureH V R)
    (args : List V) (kwargs : Dict V) (hwf : fut.kwargsAddr < h.length) :
    FutureH.call h fut args kwargs =
      (⟨fut.self_, if args.isEmpty then fut.args else args,
          dictUpdate ((fut.argNames.take args.length).foldl dictPop (hget h fut.kwargsAddr))
            kwargs⟩,
        hset (h ++ [hget h fut.kwargsAddr]) h.length
          (dictUpdate ((fut.argNames.take args.length).foldl dictPop (hget h fut.kwargsAddr))
            kwargs)) := by
  have hlen : h.length < (h ++ [hget h fut.kwargsAddr]).length := by simp
  simp only [FutureH.call, halloc]
  rw [hget_append_self, hget_hset_self _ _ _ hlen]

/-- Claim C10: calling a `Future` never mutates it.  The dict cell holding
the kwargs bound at construction is unchanged by a call; a second call with
identical arguments hands the underlying function an identical binding; and
`__init__` stores the construction kwargs as a private copy (a fresh cell
whose contents equal the caller's dict).  The `Future` record itself
(function, positional args, kwargs address, self binding) is immutable in
the embedding because `__call__` assigns no attribute. -/
theorem claim_C10_future_call_frame {V R : Type} (fut : FutureH V R) (h : Heap V)
    (args : List V) (kwargs : Dict V) (fn : PyFn V R) (cargs : List V) (caddr : Nat)
    (fut' : FutureH V R) (h' : Heap V)
    (hwf : fut.kwargsAddr < h.length)
    (hinit : FutureH.init h fn cargs caddr = Except.ok (fut', h')) :
    hget (FutureH.call h fut args kwargs).2 fut.kwargsAddr = hget h fut.kwargsAddr
    ∧ (FutureH.call (FutureH.call h fut args kwargs).2 fut args kwargs).1
        = (FutureH.call h fut args kwargs).1
    ∧ fut'.kwargsAddr = h.length
    ∧ hget h' fut'.kwargsAddr = hget h caddr := by
  have hc1 := FutureH.call_spec h fut args kwargs hwf
  have hA : hget (FutureH.call h fut args kwargs).2 fut.kwargsAddr
      = hget h fut.kwargsAddr := by
    rw [hc1]
    dsimp only
    rw [hget_hset_ne _ _ _ _ (Nat.ne_of_lt hwf).symm, hget_append_lt _ _ _ hwf]
  have hwf2 : fut.kwargsAddr < (FutureH.call h fut args kwargs).2.length := by
    rw [hc1]
    dsimp only
    simp only [hset, List.length_set, List.length_append, List.length_singleton]
    omega
  have hc2 := FutureH.call_spec _ fut args kwargs hwf2
  refine ⟨hA, ?_, ?_, ?_⟩
  · rw [hc2]
    dsimp only
    rw [hA, hc1]
  · unfold FutureH.init at hinit
    simp only [halloc] at hinit
    split at hinit
    · split at hinit
      · cases cargs with
        | nil => simp at hinit
        | cons a rest =>
            simp only [Except.ok.injEq, Prod.mk.injEq] at hinit
            rw [← hinit.1]
      · simp only [Except.ok.injEq, Prod.mk.injEq] at hinit
        rw [← hinit.1]
    · simp only [Except.ok.injEq, Prod.mk.injEq] at hinit
      rw [← hinit.1]
  · unfold FutureH.init at hinit
    simp only [halloc] at hinit
    split at hinit
    · split at hinit
      · cases cargs with
        | nil => simp at hinit
        | cons a rest =>
            simp only [Except.ok.injEq, Prod.mk.injEq] at hinit
            rw [← hinit.1, ← hinit.2]
            exact hget_append_self h (hget h caddr)
      · simp only [Except.ok.injEq, Prod.mk.injEq] at hinit
        rw [← hinit.1, ← hinit.2]
        exact hget_append_self h (hget h caddr)
    · simp only [Except.ok.injEq, Prod.mk.injEq] at hinit
      rw [← hinit.1, ← hinit.2]
      exact hget_append_self h (hget h caddr)

/-- Witness for C10 on a one-cell heap and a concrete `Future`. -/
theorem claim_C10_witness :
    wFutC10.kwargsAddr < wHeapC10.length
    ∧ FutureH.init wHeapC10 wFnC10 [] 0
        = Except.ok ((⟨wFnC10, [], 1, ["x"], none⟩ : FutureH Int Unit),
            [[("x", 5)], [("x", 5)]])
    ∧ (hget (FutureH.call wHeapC10 wFutC10 [] []).2 wFutC10.kwargsAddr
          = hget wHeapC10 wFutC10.kwargsAddr
        ∧ (FutureH.call (FutureH.call wHeapC10 wFutC10 [] []).2 wFutC10 [] []).1
            = (FutureH.call wHeapC10 wFutC10 [] []).1
        ∧ (⟨wFnC10, [], 1, ["x"], none⟩ : FutureH Int Unit).kwargsAddr = wHeapC10.length
        ∧ hget [[("x", 5)], [("x", 5)]]
            ((⟨wFnC10, [], 1, ["x"], none⟩ : FutureH Int Unit).kwargsAddr)
            = hget wHeapC10 0) :=
  ⟨by decide, rfl,
    claim_C10_future_call_frame wFutC10 wHeapC10 [] [] wFnC10 [] 0
      ⟨wFnC10, [], 1, ["x"], none⟩ [[("x", 5)], [("x", 5)]] (by decide) rfl⟩

/-!  ## Claims about `create_train_step` -/

/-- Claim C3: `create_train_step` in graph mode (for a callable or tensor
loss) returns the loss tensors re-emitted as identity nodes conditioned on
the train op built from `total_loss_fn(loss)` and the optimizer, and
evaluating such a node yields the original loss value while running the
train op's effect; in eager mode it returns a `Future` over `train_step`
with the bound kwargs, and invoking it evaluates the loss under the tape,
computes the gradients of `total_loss_fn(loss)` with respect to the
variables to train, applies them via `optimizer.apply_gradients`, and
returns the original loss value. -/
theorem claim_C3_create_train_step (host : EagerHost) (ghost : GraphHost) (f : LossFn)
    (lossT : Nest GraphT) (opt : Optimizer) (tlfG : Nest GraphT → Nest GraphT)
    (tlfE : Nest Int → Nest Int) (vtt : Option VarsArg)
    (tgf : Option (List (Int × Nat) → List (Int × Nat))) (cn : Bool)
    (op : TrainOp) (t : GraphT) (s σ : HostState) :
    create_train_step false host (LossArg.fn f) opt (some (TLFArg.fn tlfG tlfE)) vtt tgf cn s
      = (Except.ok (TrainStepResult.graphOut
          (Nest.map (fun u => GIdentity.mk ⟨tlfG f.graphEval, opt.optId, resolveVarsArg vtt⟩ u)
            f.graphEval)), s)
    ∧ create_train_step false host (LossArg.tensors lossT) opt (some (TLFArg.fn tlfG tlfE))
        vtt tgf cn s
      = (Except.ok (TrainStepResult.graphOut
          (Nest.map (fun u => GIdentity.mk ⟨tlfG lossT, opt.optId, resolveVarsArg vtt⟩ u)
            lossT)), s)
    ∧ evalGIdentity ghost ⟨op, t⟩ σ = (ghost.valueOf σ t, ghost.trainEffect op σ)
    ∧ create_train_step true host (LossArg.fn f) opt (some (TLFArg.fn tlfG tlfE)) vtt tgf cn s
      = (Except.ok (TrainStepResult.eagerFuture ⟨host, opt, tgf, cn, f, tlfE, vtt⟩),
          get_or_create_global_step s)
    ∧ TrainFuture.train_step ⟨host, opt, none, cn, f, tlfE, vtt⟩ σ
      = ((f.eagerEval σ).1,
          opt.applyGradients
            ((host.gradient σ (tlfE (f.eagerEval σ).1)
                (resolveTrainVars vtt (f.eagerEval σ).2)).zip
              (resolveTrainVars vtt (f.eagerEval σ).2)) σ) := by
  exact ⟨rfl, rfl, rfl, rfl, rfl⟩

/-- Claim C9: `create_train_step` raises `ValueError` for a non-callable
`total_loss_fn` in either mode (before anything else happens: the state is
returned untouched), and in eager mode raises `ValueError` for a
non-callable loss after only the global-step lookup/creation; in both
error cases no gradient is applied — the variables and the optimizer state
are unchanged. -/
theorem claim_C9_create_train_step_validation (eager : Bool) (host : EagerHost)
    (loss : LossArg) (lossT : Nest GraphT) (opt : Optimizer) (i : Nat)
    (vtt : Option VarsArg) (tgf : Option (List (Int × Nat) → List (Int × Nat)))
    (cn : Bool) (tlfG : Nest GraphT → Nest GraphT) (tlfE : Nest Int → Nest Int)
    (s : HostState) :
    create_train_step eager host loss opt (some (TLFArg.notCallable i)) vtt tgf cn s
      = (Except.error tlfValueError, s)
    ∧ create_train_step true host (LossArg.tensors lossT) opt (some (TLFArg.fn tlfG tlfE))
        vtt tgf cn s
      = (Except.error lossValueError, get_or_create_global_step s)
    ∧ create_train_step true host (LossArg.tensors lossT) opt none vtt tgf cn s
      = (Except.error lossValueError, get_or_create_global_step s)
    ∧ (get_or_create_global_step s).vars = s.vars
    ∧ (get_or_create_global_step s).optState = s.optState
    ∧ tlfValueError.origin = ErrOrigin.thisModule
    ∧ lossValueError.origin = ErrOrigin.thisModule := by
  refine ⟨rfl, rfl, rfl, ?_, ?_, rfl, rfl⟩
  · cases hs : s.globalStep <;> simp [get_or_create_global_step, hs]
  · cases hs : s.globalStep <;> simp [get_or_create_global_step, hs]

/-!  ## Claim about error handling (C5) -/

/-- Counterexample to claim C5 as stated: `future_in_eager_mode` applied to
a non-callable object raises a `TypeError` that originates in this
module's own code (line 161-162), so not every error passes through from
the host framework. -/
theorem claim_C5_counterexample :
    errOrigin (future_in_eager_mode (PyCallable.notCallable 0 : PyCallable Int Int))
      = some ErrOrigin.thisModule := rfl

/-- Claim C5 as amended: the module does raise errors of its own — the
`TypeError` of `future_in_eager_mode` for a non-callable argument, the
`ValueError` of `Future.__init__` for an unbound self/cls callable given no
positional arguments, and the two `ValueError`s of `create_train_step` for
a non-callable `total_loss_fn` or a non-callable eager-mode loss; each of
these originates in this module.  Other failures are the host framework's
own errors passing through. -/
theorem claim_C5_module_raises_validation_errors :
    future_in_eager_mode (PyCallable.notCallable 1 : PyCallable Int Int)
      = Except.error ⟨"TypeError", "func_or_method must be callable.", ErrOrigin.thisModule⟩
    ∧ Future.init cFnC5 [] [] = Except.error unboundValueError
    ∧ (create_train_step false hostC5 (LossArg.tensors (Nest.leaf 0)) optC5
        (some (TLFArg.notCallable 0)) none none true s0C5).1 = Except.error tlfValueError
    ∧ (create_train_step true hostC5 (LossArg.tensors (Nest.leaf 0)) optC5
        none none none true s0C5).1 = Except.error lossValueError
    ∧ tlfValueError.origin = ErrOrigin.thisModule
    ∧ lossValueError.origin = ErrOrigin.thisModule
    ∧ unboundValueError.origin = ErrOrigin.thisModule := by
  exact ⟨rfl, rfl, rfl, rfl, rfl, rfl, rfl⟩

/-!  ## Claims about `np_function` -/

/-- A successful graph-mode call only ever extends the memo: every existing
entry survives with its value. -/
lemma np_function_graph_extends {Kv : Type} (func : NpFunc Kv)
    (gdo : Option (List DType → List DType)) (kwargs : Dict Kv) (m : Memo)
    (args : Nest Tensor) (node : PyFuncNode) (m' : Memo) (ran : Bool)
    (hok : np_function_graph func gdo kwargs m args = Except.ok (node, m', ran))
    (k v : List DType) (hk : memoLookup m k = some v) : memoLookup m' k = some v := by
  simp only [np_function_graph] at hok
  cases hmm : memoLookup m ((Nest.flatten args).map Tensor.dtype) with
  | some e =>
      rw [hmm] at hok
      simp only [Except.ok.injEq, Prod.mk.injEq] at hok
      rw [← hok.2.1]
      exact hk
  | none =>
      rw [hmm] at hok
      cases gdo with
      | some g =>
          simp only [Except.ok.injEq, Prod.mk.injEq] at hok
          rw [← hok.2.1]
          exact memoLookup_append m _ k v hk
      | none =>
          cases hfd : flatDTypes (func kwargs (Nest.map (fun x => npOnes x.shape x.dtype) args)) with
          | error e => rw [hfd] at hok; simp at hok
          | ok out =>
              rw [hfd] at hok
              simp only [Except.ok.injEq, Prod.mk.injEq] at hok
              rw [← hok.2.1]
              exact memoLookup_append m _ k v hk

/-- Counterexample to claim C1 as stated: with the identity numpy function,
a graph-mode call on a shape-`[2]` tensor stores the entry `[d0]` (the
flattened output dtypes) and a second call on a shape-`[3]` tensor of the
same dtype reuses that very entry without rerunning `func` — although the
output shapes of `func` differ between the two calls (`[some [2]]` vs
`[some [3]]`).  A single reused entry cannot record the output shapes of
both calls, so the memo entry does not record output shapes. -/
theorem claim_C1_counterexample :
    np_function_graph idNpFunc none [] [] tIn1
      = Except.ok (⟨tIn1, [d0]⟩, [([d0], [d0])], true)
    ∧ np_function_graph idNpFunc none [] [([d0], [d0])] tIn2
      = Except.ok (⟨tIn2, [d0]⟩, [([d0], [d0])], false)
    ∧ npOutputShapes idNpFunc [] tIn1 ≠ npOutputShapes idNpFunc [] tIn2 := by
  exact ⟨rfl, rfl, by decide⟩

/-- Claim C1 as amended: in graph mode the entry stored in the decorated
function's memo under the tuple of input dtypes records the flattened
output *dtypes* of `func` (inferred by calling `func` on `np.ones` inputs,
or produced by `get_output_dtypes`), and subsequent calls with the same
input-dtype tuple reuse that cached entry as `Tout`. -/
theorem claim_C1_memo_caches_output_dtypes {Kv : Type} (func : NpFunc Kv)
    (g : List DType → List DType) (kwargs : Dict Kv) (m : Memo) (args : Nest Tensor)
    (e out : List DType) :
    (memoLookup m ((Nest.flatten args).map Tensor.dtype) = some e →
      np_function_graph func none kwargs m args = Except.ok (⟨args, e⟩, m, false)
      ∧ np_function_graph func (some g) kwargs m args = Except.ok (⟨args, e⟩, m, false))
    ∧ (memoLookup m ((Nest.flatten args).map Tensor.dtype) = none →
        flatDTypes (func kwargs (Nest.map (fun x => npOnes x.shape x.dtype) args))
          = Except.ok out →
        np_function_graph func none kwargs m args
          = Except.ok (⟨args, out⟩,
              memoInsert m ((Nest.flatten args).map Tensor.dtype) out, true))
    ∧ (memoLookup m ((Nest.flatten args).map Tensor.dtype) = none →
        np_function_graph func (some g) kwargs m args
          = Except.ok (⟨args, g ((Nest.flatten args).map Tensor.dtype)⟩,
              memoInsert m ((Nest.flatten args).map Tensor.dtype)
                (g ((Nest.flatten args).map Tensor.dtype)), true)) := by
  refine ⟨fun he => ⟨?_, ?_⟩, fun hn hf => ?_, fun hn => ?_⟩
  · simp [np_function_graph, he]
  · simp [np_function_graph, he]
  · simp [np_function_graph, hn, hf]
  · simp [np_function_graph, hn]

/-- Witness for (amended) C1: first call on `tIn1` infers and stores the
output dtypes. -/
theorem claim_C1_witness :
    memoLookup [] ((Nest.flatten tIn1).map Tensor.dtype) = none
    ∧ flatDTypes (idNpFunc [] (Nest.map (fun x => npOnes x.shape x.dtype) tIn1))
        = Except.ok [d0]
    ∧ np_function_graph idNpFunc none [] [] tIn1
        = Except.ok (⟨tIn1, [d0]⟩,
            memoInsert [] ((Nest.flatten tIn1).map Tensor.dtype) [d0], true) :=
  ⟨rfl, rfl,
    (claim_C1_memo_caches_output_dtypes idNpFunc id [] [] tIn1 [] [d0]).2.1 rfl rfl⟩

/-- Claim C6: `np_function` memoizes per-dtype graph fragments.  Over any
sequence of graph-mode calls the memo is only ever extended (existing
entries survive unchanged); a call whose input-dtype tuple is already
memoized runs no inference, leaves the memo untouched and reuses the
stored entry as `Tout`; and a call that does run the inference stores its
result under its input-dtype tuple — so the inference runs at most once
per distinct tuple. -/
theorem claim_C6_memo_invariants {Kv : Type} (func : NpFunc Kv)
    (gdo : Option (List DType → List DType)) (kwargs : Dict Kv) (m : Memo)
    (calls : List (Nest Tensor)) (args : Nest Tensor) (k v : List DType)
    (node : PyFuncNode) (m' : Memo) :
    (memoLookup m k = some v →
      memoLookup (runNpCalls func gdo kwargs calls m).1 k = some v)
    ∧ (memoLookup m ((Nest.flatten args).map Tensor.dtype) = some v →
        np_function_graph func gdo kwargs m args = Except.ok (⟨args, v⟩, m, false))
    ∧ (np_function_graph func gdo kwargs m args = Except.ok (node, m', true) →
        memoLookup m' ((Nest.flatten args).map Tensor.dtype) = some node.tout
        ∧ node.inp = args) := by
  refine ⟨?_, fun he => by simp [np_function_graph, he], fun hr => ?_⟩
  · induction calls generalizing m with
    | nil => intro hk; simpa [runNpCalls] using hk
    | cons a rest ih =>
        intro hk
        simp only [runNpCalls]
        cases hc : np_function_graph func gdo kwargs m a with
        | error e => exact hk
        | ok r =>
            obtain ⟨nd, m2, rn⟩ := r
            exact ih m2 (np_function_graph_extends func gdo kwargs m a nd m2 rn hc k v hk)
  · simp only [np_function_graph] at hr
    cases hmm : memoLookup m ((Nest.flatten args).map Tensor.dtype) with
    | some e => rw [hmm] at hr; simp at hr
    | none =>
        rw [hmm] at hr
        cases gdo with
        | some g =>
            simp only [Except.ok.injEq, Prod.mk.injEq] at hr
            rw [← hr.1, ← hr.2.1]
            exact ⟨memoLookup_insert_self m _ _ hmm, rfl⟩
        | none =>
            cases hfd : flatDTypes (func kwargs (Nest.map (fun x => npOnes x.shape x.dtype) args)) with
            | error e => rw [hfd] at hr; simp at hr
            | ok out =>
                rw [hfd] at hr
                simp only [Except.ok.injEq, Prod.mk.injEq] at hr
                rw [← hr.1, ← hr.2.1]
                exact ⟨memoLookup_insert_self m _ _ hmm, rfl⟩

/-- Witness for C6: a call whose dtype tuple is already memoized reuses the
entry, runs no inference and leaves the memo unchanged. -/
theorem claim_C6_witness :
    memoLookup wMemoC6 ((Nest.flatten tIn2).map Tensor.dtype) = some [d0]
    ∧ np_function_graph idNpFunc none [] wMemoC6 tIn2
        = Except.ok (⟨tIn2, [d0]⟩, wMemoC6, false) :=
  ⟨rfl,
    (claim_C6_memo_invariants idNpFunc none [] wMemoC6 [] tIn2 [] [d0]
      ⟨tIn2, []⟩ wMemoC6).2.1 rfl⟩

/-- Claim C7: in eager mode `np_function` converts every tensor argument to
a numpy array before calling `func` and converts every non-`None` output
back to a tensor, so the returned structure equals the tensor conversion of
`func` applied to the numpy values of the inputs
(`np_function_eager_spec` states the claim's formula verbatim); the
conversions preserve dtype, shape and data exactly. -/
theorem claim_C7_np_function_eager_conversion {Kv : Type} (func : NpFunc Kv)
    (kwargs : Dict Kv) (args : Nest Tensor) (t : Tensor) (a : NpArray) :
    np_function_eager func kwargs args = np_function_eager_spec func kwargs args
    ∧ convert_to_tensor (Tensor.numpy t) = t
    ∧ Tensor.numpy (convert_to_tensor a) = a := by
  exact ⟨rfl, rfl, rfl⟩

end EagerUtils
